import Mathlib

/-!
Verification development for the Valen chat relay (`src/valenai.py`).

Python strings are embedded as `List Char` (`PyStr`).  The module-level
startup code, the credential rotation, the markdown post-processing and the
`/chat` request handler are translated below; the external completion call
(`model.generate_content`) is abstracted by the `Outcome` it produces on each
attempt, so a run of the handler is a function of the parsed request body,
the list of per-attempt completion outcomes, and the credential queue.
-/

abbrev PyStr := List Char

/-- Python `s.lower()` (ASCII case mapping; the needles searched for below are
ASCII). -/
def pyLower (s : PyStr) : PyStr := s.map Char.toLower

/-- `startsWithSeq hay needle`: `needle` is a prefix of `hay`. -/
def startsWithSeq : PyStr → PyStr → Bool
  | _, [] => true
  | [], _ :: _ => false
  | x :: xs, y :: ys => x == y && startsWithSeq xs ys

/-- Python `needle in hay` (substring containment). -/
def containsSeq : PyStr → PyStr → Bool
  | [], needle => needle.isEmpty
  | x :: xs, needle => startsWithSeq (x :: xs) needle || containsSeq xs needle

/-- `endsWithSeq hay needle`: `needle` is a suffix of `hay`. -/
def endsWithSeq (hay needle : PyStr) : Bool :=
  startsWithSeq hay.reverse needle.reverse

/-- Python `s.split(",")`: never returns an empty list; `"".split(",") = [""]`. -/
def splitOnComma : PyStr → List PyStr
  | [] => [[]]
  | c :: rest =>
    let r := splitOnComma rest
    if c = ',' then [] :: r
    else (c :: r.headD []) :: r.tail

/-- Python `s.strip()`: remove leading and trailing whitespace. -/
def pyStrip (s : PyStr) : PyStr :=
  ((s.dropWhile Char.isWhitespace).reverse.dropWhile Char.isWhitespace).reverse

/-- `API_KEYS = [key.strip() for key in API_KEYS_STRING.split(",") if key.strip()]`
(valenai.py line 25), as map-then-filter. -/
def pyParseKeys (s : PyStr) : List PyStr :=
  ((splitOnComma s).map pyStrip).filter (fun k => !k.isEmpty)

/-- The comprehension on line 25 read literally: for each comma-separated
piece, keep its stripped form when non-empty.  Proved equal to `pyParseKeys`
below. -/
def pyKeyComprehension (s : PyStr) : List PyStr :=
  (splitOnComma s).filterMap
    (fun k => if (pyStrip k).isEmpty then none else some (pyStrip k))

def missingKeysMsg : PyStr :=
  ("Missing environment variable: GEMINI_API_KEYS").toList

def noValidKeysMsg : PyStr :=
  ("No valid API keys found in GEMINI_API_KEYS").toList

inductive InitResult where
  | valueError (msg : PyStr)
  | started (queue : List PyStr) (configuredKey : PyStr)
  deriving DecidableEq

/-- Module initialization, valenai.py lines 22-36: read `GEMINI_API_KEYS`
(`none` = unset), raise `ValueError` when falsy or when no valid key remains,
otherwise build `api_key_queue` and configure the first key
(`genai.configure(api_key=api_key_queue[0])`). -/
def moduleInit (env : Option PyStr) : InitResult :=
  match env with
  | none => InitResult.valueError missingKeysMsg
  | some s =>
    if s.isEmpty then InitResult.valueError missingKeysMsg
    else
      let keys := pyParseKeys s
      if keys.isEmpty then InitResult.valueError noValidKeysMsg
      else InitResult.started keys (keys.headD [])

/-- `deque.rotate(-1)`: move the front element to the back. -/
def rotateNeg1 : List PyStr → List PyStr
  | [] => []
  | x :: xs => xs ++ [x]

/-- `get_next_api_key` (valenai.py lines 31-34): rotate the queue by -1 and
return the new front element (`api_key_queue[0]`; the queue is non-empty for
the program's lifetime, so the default never arises). -/
def get_next_api_key (q : List PyStr) : PyStr × List PyStr :=
  let q2 := rotateNeg1 q
  (q2.headD [], q2)

/-- The queue update the retry path performs (valenai.py lines 773-775 and
781-783): an explicit `api_key_queue.rotate(-1)` followed by
`get_next_api_key()`, which rotates again. -/
def retryRotate (q : List PyStr) : List PyStr :=
  (get_next_api_key (rotateNeg1 q)).2

def invalidKeyNeedle : PyStr := ("invalid API key").toList

def quotaNeedle : PyStr := ("quota exceeded").toList

/-- `"invalid API key" in str(e).lower()` (valenai.py line 771): note the
needle keeps its original capitalization while the haystack is lowercased. -/
def invalidKeyTest (m : PyStr) : Bool := containsSeq (pyLower m) invalidKeyNeedle

/-- `"quota exceeded" in str(e).lower()` (valenai.py line 779). -/
def quotaTest (m : PyStr) : Bool := containsSeq (pyLower m) quotaNeedle

/-- lazy close scan for `\*(.*?)\*`-style patterns: find the shortest
newline-free content followed by the single closing character `c`;
returns (content, rest-after-match). -/
def findClose1 (c : Char) : PyStr → Option (PyStr × PyStr)
  | [] => none
  | x :: xs =>
    if x = c then some ([], xs)
    else if x = '\n' then none
    else (findClose1 c xs).map (fun gr => (x :: gr.1, gr.2))

/-- lazy close scan for `\*\*(.*?)\*\*`-style patterns: shortest newline-free
content followed by the doubled closing character `c`. -/
def findClose2 (c : Char) : PyStr → Option (PyStr × PyStr)
  | [] => none
  | x :: xs =>
    if x = c ∧ xs.head? = some c then some ([], xs.tail)
    else if x = '\n' then none
    else (findClose2 c xs).map (fun gr => (x :: gr.1, gr.2))

/-- lazy close scan for the closing `_{1,2}` of `_{1,2}(.*?)_{1,2}`: shortest
newline-free content, then greedily one or two underscores. -/
def findCloseUnd : PyStr → Option (PyStr × PyStr)
  | [] => none
  | x :: xs =>
    if x = '_' then
      if xs.head? = some '_' then some ([], xs.tail) else some ([], xs)
    else if x = '\n' then none
    else (findCloseUnd xs).map (fun gr => (x :: gr.1, gr.2))

/-- match of `\*\*(.*?)\*\*` anchored at the current position. -/
def matchStar2 : PyStr → Option (PyStr × PyStr)
  | c1 :: c2 :: t => if c1 = '*' ∧ c2 = '*' then findClose2 '*' t else none
  | _ => none

/-- match of `~~(.*?)~~` anchored at the current position. -/
def matchTilde : PyStr → Option (PyStr × PyStr)
  | c1 :: c2 :: t => if c1 = '~' ∧ c2 = '~' then findClose2 '~' t else none
  | _ => none

/-- match of `\*(.*?)\*` anchored at the current position. -/
def matchStar1 : PyStr → Option (PyStr × PyStr)
  | c :: t => if c = '*' then findClose1 '*' t else none
  | [] => none

/-- match of `_{1,2}(.*?)_{1,2}` anchored at the current position.  The
opening `_{1,2}` is greedy: two underscores are tried first; when no close
exists for that choice the engine backtracks to a single opening underscore,
whose empty lazy content immediately closes on the second underscore. -/
def matchUnd : PyStr → Option (PyStr × PyStr)
  | c1 :: c2 :: t =>
    if c1 = '_' then
      if c2 = '_' then
        match findCloseUnd t with
        | some gr => some gr
        | none => some ([], t)
      else findCloseUnd (c2 :: t)
    else none
  | _ => none

/-- `re.sub` driver: scan left to right, at each position emit the anchored
match's group and resume after it, or emit the character.  Fuel counts
positions; `reSub` supplies `l.length`, which always suffices because every
match consumes at least two characters. -/
def reSubF (m : PyStr → Option (PyStr × PyStr)) : Nat → PyStr → PyStr
  | 0, l => l
  | _ + 1, [] => []
  | n + 1, x :: xs =>
    match m (x :: xs) with
    | some gr => gr.1 ++ reSubF m n gr.2
    | none => x :: reSubF m n xs

def reSub (m : PyStr → Option (PyStr × PyStr)) (l : PyStr) : PyStr :=
  reSubF m l.length l

/-- `remove_markdown` (valenai.py lines 738-744): the four `re.sub` passes in
source order — bold `\*\*(.*?)\*\*`, italic `\*(.*?)\*`, underscores
`_{1,2}(.*?)_{1,2}`, strikethrough `~~(.*?)~~`, each replaced by the group. -/
def remove_markdown (text : PyStr) : PyStr :=
  reSub matchTilde (reSub matchUnd (reSub matchStar1 (reSub matchStar2 text)))

/-- `remove_markdown(response.text.strip())` (valenai.py line 767). -/
def pyProcess (t : PyStr) : PyStr := remove_markdown (pyStrip t)

/-- The prompt built on valenai.py line 765:
`f"{PERSONALITY_PROMPT}\n\nUser: {user_message}"`, parametrized by the
persona constant. -/
def chat_prompt (persona msg : PyStr) : PyStr :=
  persona ++ ("\n\nUser: ").toList ++ msg

/-- One completion attempt as observed by the handler: `generate_content`
returned text, raised a `google_exceptions.ClientError` with message `msg`,
or raised some other exception. -/
inductive Outcome where
  | success (text : PyStr)
  | clientError (msg : PyStr)
  | otherError
  deriving DecidableEq

/-- The JSON body the handler returns: `{"error": ...}` or `{"response": ...}`. -/
inductive ChatResult where
  | errorBody (msg : PyStr)
  | responseBody (msg : PyStr)
  deriving DecidableEq

def capacityMsg : PyStr :=
  ("Due to unexpected capacity constraints, I am unable to respond to your message. Please try again soon.").toList

def processingErrMsg : PyStr :=
  ("An error occurred while processing your request.").toList

def generatingErrMsg : PyStr :=
  ("An error occurred while generating a response.").toList

def noMessageMsg : PyStr := ("No message provided").toList

/-- The try/except body of `chat` (valenai.py lines 754-790) together with its
self-recursive retry `return await chat(request)`.  The list of outcomes
feeds successive `generate_content` attempts; `(none, q)` means the supplied
outcomes were exhausted while the handler was still recursing.  Returns the
final queue alongside the result. -/
def chatAttempts : List Outcome → List PyStr → Option ChatResult × List PyStr
  | [], q => (none, q)
  | Outcome.success t :: _, q => (some (ChatResult.responseBody (pyProcess t)), q)
  | Outcome.clientError m :: rest, q =>
    if invalidKeyTest m then
      if 1 < q.length then chatAttempts rest (retryRotate q)
      else (some (ChatResult.responseBody capacityMsg), q)
    else if quotaTest m then
      if 1 < q.length then chatAttempts rest (retryRotate q)
      else (some (ChatResult.responseBody capacityMsg), q)
    else (some (ChatResult.responseBody processingErrMsg), q)
  | Outcome.otherError :: _, q => (some (ChatResult.responseBody generatingErrMsg), q)

/-- Trace of the credential used by each completed attempt: `genai` is always
configured with the front of the (current) queue when `generate_content`
runs. -/
def chatKeysTried : List Outcome → List PyStr → List PyStr
  | [], _ => []
  | Outcome.success _ :: _, q => [q.headD []]
  | Outcome.clientError m :: rest, q =>
    if invalidKeyTest m then
      if 1 < q.length then q.headD [] :: chatKeysTried rest (retryRotate q)
      else [q.headD []]
    else if quotaTest m then
      if 1 < q.length then q.headD [] :: chatKeysTried rest (retryRotate q)
      else [q.headD []]
    else [q.headD []]
  | Outcome.otherError :: _, q => [q.headD []]

/-- The fields `chat` reads (or could read) from the parsed JSON body.  The
handler only ever calls `data.get("message")`. -/
structure ReqBody where
  message : Option PyStr
  chat_id : Option PyStr
  user_id : Option PyStr
  deriving DecidableEq

/-- Python truthiness of `data.get("message")`: `None` and `""` are falsy. -/
def pyTruthy : Option PyStr → Bool
  | none => false
  | some s => !s.isEmpty

/-- Result of one `/chat` invocation.  `unhandled` models an exception
escaping the handler; `pending` models a run still inside the retry
recursion after the supplied outcomes. -/
inductive HandlerOutcome where
  | json (result : ChatResult) (queue : List PyStr)
  | unhandled
  | pending (queue : List PyStr)
  deriving DecidableEq

/-- The `/chat` handler (valenai.py lines 747-792).  `body = none` models a
request whose `await request.json()` (line 749, before the try block) raises;
that exception propagates, so the run is `unhandled`. -/
def chat (body : Option ReqBody) (outcomes : List Outcome) (q : List PyStr) :
    HandlerOutcome :=
  match body with
  | none => HandlerOutcome.unhandled
  | some b =>
    if !pyTruthy b.message then HandlerOutcome.json (ChatResult.errorBody noMessageMsg) q
    else
      match chatAttempts outcomes q with
      | (some r, q2) => HandlerOutcome.json r q2
      | (none, q2) => HandlerOutcome.pending q2

def isUnhandled : HandlerOutcome → Bool
  | HandlerOutcome.unhandled => true
  | _ => false

/-- error-or-not observer for `moduleInit`. -/
def isValueError : InitResult → Bool
  | InitResult.valueError _ => true
  | InitResult.started _ _ => false

theorem reSubF_nil (m : PyStr → Option (PyStr × PyStr)) : ∀ n, reSubF m n [] = []
  | 0 => rfl
  | _ + 1 => rfl

theorem reSubF_match (m : PyStr → Option (PyStr × PyStr)) (n : Nat) (x : Char)
    (xs g r : PyStr) (hx : m (x :: xs) = some (g, r)) :
    reSubF m (n + 1) (x :: xs) = g ++ reSubF m n r := by
  simp [reSubF, hx]

theorem reSubF_step (m : PyStr → Option (PyStr × PyStr)) (n : Nat) (x : Char)
    (xs : PyStr) (hx : m (x :: xs) = none) :
    reSubF m (n + 1) (x :: xs) = x :: reSubF m n xs := by
  simp [reSubF, hx]

theorem rotateNeg1_length (q : List PyStr) : (rotateNeg1 q).length = q.length := by
  cases q with
  | nil => rfl
  | cons x xs => simp [rotateNeg1]

theorem retryRotate_length (q : List PyStr) : (retryRotate q).length = q.length := by
  simp [retryRotate, get_next_api_key, rotateNeg1_length]

theorem chatAttempts_queue_length :
    ∀ (outs : List Outcome) (q : List PyStr),
      (chatAttempts outs q).2.length = q.length := by
  intro outs
  induction outs with
  | nil => intro q; rfl
  | cons o rest ih =>
    intro q
    cases o with
    | success t => rfl
    | clientError m =>
      simp only [chatAttempts]
      by_cases h1 : invalidKeyTest m = true
      · by_cases h2 : 1 < q.length
        · simp [h1, h2, ih, retryRotate_length]
        · simp [h1, h2]
      · by_cases h3 : quotaTest m = true
        · by_cases h2 : 1 < q.length
          · simp [h1, h3, h2, ih, retryRotate_length]
          · simp [h1, h3, h2]
        · simp [h1, h3]
    | otherError => rfl

theorem chatAttempts_classified (m : PyStr) (rest : List Outcome) (q : List PyStr)
    (h : invalidKeyTest m = true ∨ quotaTest m = true) :
    chatAttempts (Outcome.clientError m :: rest) q
      = if 1 < q.length then chatAttempts rest (retryRotate q)
        else (some (ChatResult.responseBody capacityMsg), q) := by
  rcases h with h | h
  · simp [chatAttempts, h]
  · by_cases h1 : invalidKeyTest m = true
    · simp [chatAttempts, h1]
    · simp [chatAttempts, h1, h]

/-- C9: the credential queue's length is invariant: rotation in
`get_next_api_key` and along any run of the retry path preserves it, so the
exhaustion test `len(api_key_queue) > 1` keeps the truth value fixed by the
initial configuration. -/
theorem c9_rotation_length_invariant :
    ∀ (outs : List Outcome) (q : List PyStr),
      (chatAttempts outs q).2.length = q.length
      ∧ ((get_next_api_key q).2).length = q.length
      ∧ (1 < (chatAttempts outs q).2.length ↔ 1 < q.length) := by
  intro outs q
  refine ⟨chatAttempts_queue_length outs q, ?_, ?_⟩
  · simp [get_next_api_key, rotateNeg1_length]
  · rw [chatAttempts_queue_length outs q]

/-- C3: evaluation of the retry path's rotation.  A classified (quota)
failure runs `rotate(-1)` and then `get_next_api_key()` (which rotates
again), so the queue advances TWO positions: with [k1,k2,k3] the new current
credential is k3 (k2 is skipped), even though `get_next_api_key` alone would
have produced k2; with [k1,k2] the same failing k1 is reconfigured. -/
theorem c3_rotation_eval :
    retryRotate [("k1").toList, ("k2").toList, ("k3").toList]
      = [("k3").toList, ("k1").toList, ("k2").toList]
    ∧ (get_next_api_key [("k1").toList, ("k2").toList, ("k3").toList]).1
      = ("k2").toList
    ∧ retryRotate [("k1").toList, ("k2").toList] = [("k1").toList, ("k2").toList]
    ∧ chatAttempts
        [Outcome.clientError (("Quota exceeded").toList),
         Outcome.success (("ok").toList)]
        [("k1").toList, ("k2").toList, ("k3").toList]
      = (some (ChatResult.responseBody (("ok").toList)),
         [("k3").toList, ("k1").toList, ("k2").toList]) :=
  ⟨by decide, by decide, by decide, by decide⟩

/-- C8: a `ClientError` matching neither classification test, and any
non-`ClientError` exception, yield a generic failure body with no retry: a
single attempt is consumed and the queue is untouched. -/
theorem c8_unclassified_no_retry :
    (∀ (m : PyStr) (rest : List Outcome) (q : List PyStr),
        invalidKeyTest m = false → quotaTest m = false →
        chatAttempts (Outcome.clientError m :: rest) q
          = (some (ChatResult.responseBody processingErrMsg), q))
    ∧ (∀ (rest : List Outcome) (q : List PyStr),
        chatAttempts (Outcome.otherError :: rest) q
          = (some (ChatResult.responseBody generatingErrMsg), q)) := by
  constructor
  · intro m rest q h1 h2
    simp [chatAttempts, h1, h2]
  · intro rest q
    rfl

theorem c8_unclassified_no_retry_witness :
    invalidKeyTest (("connection reset").toList) = false
    ∧ quotaTest (("connection reset").toList) = false
    ∧ chatAttempts [Outcome.clientError (("connection reset").toList)]
        [("k1").toList, ("k2").toList]
      = (some (ChatResult.responseBody processingErrMsg),
         [("k1").toList, ("k2").toList])
    ∧ chatAttempts [Outcome.otherError] [("k1").toList]
      = (some (ChatResult.responseBody generatingErrMsg), [("k1").toList]) :=
  ⟨by decide, by decide,
   c8_unclassified_no_retry.1 (("connection reset").toList) [] _ (by decide) (by decide),
   c8_unclassified_no_retry.2 [] _⟩

/-- C1 counterexample: with two configured credentials, the first two
classified (quota) failures both try credential k1 (the double rotation of
the two-element queue is the identity, so k2 is never tried), and after
three classified failures the handler is still recursing rather than
having returned a service-unavailable body. -/
theorem c1_counterexample :
    chatKeysTried
        [Outcome.clientError (("429 Quota exceeded").toList),
         Outcome.clientError (("429 Quota exceeded").toList)]
        [("k1").toList, ("k2").toList]
      = [("k1").toList, ("k1").toList]
    ∧ (chatAttempts
        (List.replicate 3 (Outcome.clientError (("429 Quota exceeded").toList)))
        [("k1").toList, ("k2").toList]).1 = none :=
  ⟨by decide, by decide⟩

/-- C1 amended: with exactly one configured credential a classified failure
immediately returns the capacity ("service unavailable") body without any
retry; with more than one credential the rotation never shrinks, the
exhaustion test never fires, and a request whose attempts all fail classified
recurses without bound — after any number of consecutive classified failures
the handler still has not returned. -/
theorem c1_amended :
    (∀ (m : PyStr) (rest : List Outcome) (q : List PyStr),
        (invalidKeyTest m = true ∨ quotaTest m = true) → q.length = 1 →
        chatAttempts (Outcome.clientError m :: rest) q
          = (some (ChatResult.responseBody capacityMsg), q))
    ∧ (∀ (n : Nat) (m : PyStr) (q : List PyStr),
        (invalidKeyTest m = true ∨ quotaTest m = true) → 1 < q.length →
        (chatAttempts (List.replicate n (Outcome.clientError m)) q).1 = none) := by
  constructor
  · intro m rest q hc hq
    rw [chatAttempts_classified m rest q hc, if_neg (by omega)]
  · intro n
    induction n with
    | zero => intro m q hc hq; rfl
    | succ k ih =>
      intro m q hc hq
      rw [List.replicate_succ, chatAttempts_classified m _ q hc, if_pos hq]
      exact ih m (retryRotate q) hc (by rw [retryRotate_length]; exact hq)

theorem c1_amended_witness :
    chatAttempts [Outcome.clientError (("Quota exceeded").toList)] [("k1").toList]
      = (some (ChatResult.responseBody capacityMsg), [("k1").toList])
    ∧ (chatAttempts
        (List.replicate 5 (Outcome.clientError (("Quota exceeded").toList)))
        [("a").toList, ("b").toList]).1 = none :=
  ⟨c1_amended.1 (("Quota exceeded").toList) [] [("k1").toList]
      (Or.inr (by decide)) (by decide),
   c1_amended.2 5 (("Quota exceeded").toList) [("a").toList, ("b").toList]
      (Or.inr (by decide)) (by decide)⟩

/-- C2 counterexample: a request whose body does not parse as JSON makes
`await request.json()` raise before the try block, so the exception
propagates and no structured JSON body is returned. -/
theorem c2_counterexample :
    chat none [Outcome.success (("ok").toList)] [("k").toList]
      = HandlerOutcome.unhandled := rfl

/-- C2 amended: for every request whose body parses as JSON, no exception
raised by the completion call escapes the handler — whatever the outcomes,
the run is never unhandled (every terminating path returns a structured
JSON body; a run of classified failures may instead keep recursing). -/
theorem c2_amended :
    ∀ (b : ReqBody) (outs : List Outcome) (q : List PyStr),
      isUnhandled (chat (some b) outs q) = false := by
  intro b outs q
  by_cases h : (!pyTruthy b.message) = true
  · simp [chat, h, isUnhandled]
  · rcases hca : chatAttempts outs q with ⟨o, q2⟩
    cases o <;> simp [chat, h, hca, isUnhandled]

/-- C4 counterexample: a request carrying a message but no chat_id and no
user_id is served normally (a response body is produced) instead of being
rejected with an InvalidArgument-style error. -/
theorem c4_counterexample :
    chat (some (ReqBody.mk (some (("hi").toList)) none none))
        [Outcome.success (("ok").toList)] [("k").toList]
      = HandlerOutcome.json (ChatResult.responseBody (("ok").toList))
          [("k").toList] := by
  decide

/-- C4 amended: the handler rejects exactly the requests whose message field
is absent or empty — returning the body with the error key "No message
provided" — and never reads chat_id or user_id, which therefore are not
required and cannot affect the response. -/
theorem c4_amended :
    (∀ (c u : Option PyStr) (outs : List Outcome) (q : List PyStr),
        chat (some (ReqBody.mk none c u)) outs q
          = HandlerOutcome.json (ChatResult.errorBody noMessageMsg) q
        ∧ chat (some (ReqBody.mk (some []) c u)) outs q
          = HandlerOutcome.json (ChatResult.errorBody noMessageMsg) q)
    ∧ (∀ (mo c u c2 u2 : Option PyStr) (outs : List Outcome) (q : List PyStr),
        chat (some (ReqBody.mk mo c u)) outs q
          = chat (some (ReqBody.mk mo c2 u2)) outs q) := by
  constructor
  · intro c u outs q
    exact ⟨rfl, rfl⟩
  · intro mo c u c2 u2 outs q
    rfl

theorem parse_eq_comprehension (s : PyStr) : pyParseKeys s = pyKeyComprehension s := by
  unfold pyParseKeys pyKeyComprehension
  induction splitOnComma s with
  | nil => rfl
  | cons k t ih =>
    by_cases h : pyStrip k = []
    · simp [List.filter_cons, List.filterMap_cons, h, ih]
    · simp [List.filter_cons, List.filterMap_cons, h, ih,
        List.isEmpty_eq_true]

theorem comprehension_mem_ne_nil (s k : PyStr) (hk : k ∈ pyKeyComprehension s) :
    k ≠ [] := by
  rcases List.mem_filterMap.mp hk with ⟨a, _, ha⟩
  by_cases h : (pyStrip a).isEmpty = true
  · simp [h] at ha
  · simp [h] at ha
    intro hnil
    apply h
    rw [ha, hnil]
    rfl

/-- C10: module initialization raises `ValueError` when `GEMINI_API_KEYS` is
unset (or empty, which is equally falsy) or when no non-empty credential
remains after splitting on commas and stripping; otherwise the rotation queue
holds exactly the non-empty stripped credentials in the order given (each
necessarily non-empty), and the first of them is configured. -/
theorem c10_module_init :
    moduleInit none = InitResult.valueError missingKeysMsg
    ∧ (∀ s : PyStr, pyKeyComprehension s = [] →
        (moduleInit (some s) = InitResult.valueError missingKeysMsg
         ∨ moduleInit (some s) = InitResult.valueError noValidKeysMsg))
    ∧ (∀ s : PyStr, pyKeyComprehension s ≠ [] →
        moduleInit (some s)
          = InitResult.started (pyKeyComprehension s)
              ((pyKeyComprehension s).headD []))
    ∧ (∀ s k : PyStr, k ∈ pyKeyComprehension s → k ≠ []) := by
  refine ⟨rfl, ?_, ?_, fun s k hk => comprehension_mem_ne_nil s k hk⟩
  · intro s hs
    cases s with
    | nil => exact Or.inl rfl
    | cons c t =>
      right
      simp [moduleInit, parse_eq_comprehension, hs]
  · intro s hs
    cases s with
    | nil => exact absurd (by decide : pyKeyComprehension [] = []) hs
    | cons c t =>
      simp [moduleInit, parse_eq_comprehension, hs]

theorem c10_module_init_witness :
    (moduleInit (some ((" , ").toList)) = InitResult.valueError missingKeysMsg
     ∨ moduleInit (some ((" , ").toList)) = InitResult.valueError noValidKeysMsg)
    ∧ moduleInit (some (("k1, k2").toList))
        = InitResult.started (pyKeyComprehension (("k1, k2").toList))
            ((pyKeyComprehension (("k1, k2").toList)).headD [])
    ∧ pyKeyComprehension (("k1, k2").toList) = [("k1").toList, ("k2").toList] :=
  ⟨c10_module_init.2.1 _ (by decide),
   c10_module_init.2.2.1 _ (by decide),
   by decide⟩

theorem matchStar2_none {x : Char} (xs : PyStr) (hx : x ≠ '*') :
    matchStar2 (x :: xs) = none := by
  cases xs with
  | nil => rfl
  | cons y ys =>
    simp only [matchStar2]
    rw [if_neg (fun hc => hx hc.1)]

theorem matchStar2_none2 (x : Char) {y : Char} (ys : PyStr) (hy : y ≠ '*') :
    matchStar2 (x :: y :: ys) = none := by
  simp only [matchStar2]
  rw [if_neg (fun hc => hy hc.2)]

theorem matchTilde_none {x : Char} (xs : PyStr) (hx : x ≠ '~') :
    matchTilde (x :: xs) = none := by
  cases xs with
  | nil => rfl
  | cons y ys =>
    simp only [matchTilde]
    rw [if_neg (fun hc => hx hc.1)]

theorem matchStar1_none {x : Char} (xs : PyStr) (hx : x ≠ '*') :
    matchStar1 (x :: xs) = none := by
  simp only [matchStar1]
  rw [if_neg hx]

theorem matchUnd_none {x : Char} (xs : PyStr) (hx : x ≠ '_') :
    matchUnd (x :: xs) = none := by
  cases xs with
  | nil => rfl
  | cons y ys =>
    simp only [matchUnd]
    rw [if_neg hx]

theorem reSubF_skip (m : PyStr → Option (PyStr × PyStr)) :
    ∀ (l : PyStr) (n : Nat) (rest : PyStr),
      (∀ x xs, x ∈ l → m (x :: xs) = none) →
      reSubF m (l.length + n) (l ++ rest) = l ++ reSubF m n rest := by
  intro l
  induction l with
  | nil =>
    intro n rest _
    simp
  | cons a t ih =>
    intro n rest hm
    have h1 : m (a :: (t ++ rest)) = none := hm a (t ++ rest) (List.mem_cons_self a t)
    have hlen : (a :: t).length + n = (t.length + n) + 1 := by
      simp only [List.length_cons]
      omega
    rw [List.cons_append, hlen, reSubF_step m (t.length + n) a (t ++ rest) h1,
      ih n rest (fun x xs hx => hm x xs (List.mem_cons_of_mem a hx))]
    rfl

theorem reSub_id (m : PyStr → Option (PyStr × PyStr)) (l : PyStr)
    (hm : ∀ x xs, x ∈ l → m (x :: xs) = none) : reSub m l = l := by
  have h := reSubF_skip m l 0 [] hm
  rw [Nat.add_zero, List.append_nil] at h
  rw [reSub, h]
  simp [reSubF]

theorem reSub_star2_id (l : PyStr) (h : ∀ a ∈ l, a ≠ '*') :
    reSub matchStar2 l = l :=
  reSub_id _ l (fun x xs hx => matchStar2_none xs (h x hx))

theorem reSub_star1_id (l : PyStr) (h : ∀ a ∈ l, a ≠ '*') :
    reSub matchStar1 l = l :=
  reSub_id _ l (fun x xs hx => matchStar1_none xs (h x hx))

theorem reSub_und_id (l : PyStr) (h : ∀ a ∈ l, a ≠ '_') :
    reSub matchUnd l = l :=
  reSub_id _ l (fun x xs hx => matchUnd_none xs (h x hx))

theorem reSub_tilde_id (l : PyStr) (h : ∀ a ∈ l, a ≠ '~') :
    reSub matchTilde l = l :=
  reSub_id _ l (fun x xs hx => matchTilde_none xs (h x hx))

theorem findClose1_spec (c : Char) :
    ∀ (inner r : PyStr), (∀ a ∈ inner, a ≠ c ∧ a ≠ '\n') →
      findClose1 c (inner ++ c :: r) = some (inner, r) := by
  intro inner
  induction inner with
  | nil =>
    intro r _
    simp [findClose1]
  | cons a t ih =>
    intro r h
    have ha := h a (List.mem_cons_self a t)
    rw [List.cons_append]
    simp only [findClose1]
    rw [if_neg ha.1, if_neg ha.2, ih r (fun x hx => h x (List.mem_cons_of_mem a hx))]
    rfl

theorem findClose2_spec (c : Char) :
    ∀ (inner r : PyStr), (∀ a ∈ inner, a ≠ c ∧ a ≠ '\n') →
      findClose2 c (inner ++ c :: c :: r) = some (inner, r) := by
  intro inner
  induction inner with
  | nil =>
    intro r _
    simp [findClose2]
  | cons a t ih =>
    intro r h
    have ha := h a (List.mem_cons_self a t)
    rw [List.cons_append]
    simp only [findClose2]
    rw [if_neg (fun hc => ha.1 hc.1), if_neg ha.2,
      ih r (fun x hx => h x (List.mem_cons_of_mem a hx))]
    rfl

theorem findCloseUnd_spec2 :
    ∀ (inner r : PyStr), (∀ a ∈ inner, a ≠ '_' ∧ a ≠ '\n') →
      findCloseUnd (inner ++ '_' :: '_' :: r) = some (inner, r) := by
  intro inner
  induction inner with
  | nil =>
    intro r _
    simp [findCloseUnd]
  | cons a t ih =>
    intro r h
    have ha := h a (List.mem_cons_self a t)
    rw [List.cons_append]
    simp only [findCloseUnd]
    rw [if_neg ha.1, if_neg ha.2, ih r (fun x hx => h x (List.mem_cons_of_mem a hx))]
    rfl

theorem findCloseUnd_spec1 :
    ∀ inner : PyStr, (∀ a ∈ inner, a ≠ '_' ∧ a ≠ '\n') →
      findCloseUnd (inner ++ ['_']) = some (inner, []) := by
  intro inner
  induction inner with
  | nil =>
    intro _
    simp [findCloseUnd]
  | cons a t ih =>
    intro h
    have ha := h a (List.mem_cons_self a t)
    rw [List.cons_append]
    simp only [findCloseUnd]
    rw [if_neg ha.1, if_neg ha.2, ih (fun x hx => h x (List.mem_cons_of_mem a hx))]
    rfl

theorem subStar2_unwrap (inner : PyStr) (h : ∀ a ∈ inner, a ≠ '*' ∧ a ≠ '\n') :
    reSub matchStar2 ('*' :: '*' :: (inner ++ ['*', '*'])) = inner := by
  have hm : matchStar2 ('*' :: '*' :: (inner ++ ['*', '*'])) = some (inner, []) := by
    simp only [matchStar2]
    rw [if_pos ⟨trivial, trivial⟩]
    exact findClose2_spec '*' inner [] h
  have hlen : ('*' :: '*' :: (inner ++ ['*', '*'])).length = (inner.length + 3) + 1 := by
    simp only [List.length_cons, List.length_append, List.length_nil]
  unfold reSub
  rw [hlen, reSubF_match _ _ _ _ _ _ hm, reSubF_nil, List.append_nil]

theorem subTilde_unwrap (inner : PyStr) (h : ∀ a ∈ inner, a ≠ '~' ∧ a ≠ '\n') :
    reSub matchTilde ('~' :: '~' :: (inner ++ ['~', '~'])) = inner := by
  have hm : matchTilde ('~' :: '~' :: (inner ++ ['~', '~'])) = some (inner, []) := by
    simp only [matchTilde]
    rw [if_pos ⟨trivial, trivial⟩]
    exact findClose2_spec '~' inner [] h
  have hlen : ('~' :: '~' :: (inner ++ ['~', '~'])).length = (inner.length + 3) + 1 := by
    simp only [List.length_cons, List.length_append, List.length_nil]
  unfold reSub
  rw [hlen, reSubF_match _ _ _ _ _ _ hm, reSubF_nil, List.append_nil]

theorem subStar1_unwrap (inner : PyStr) (h : ∀ a ∈ inner, a ≠ '*' ∧ a ≠ '\n') :
    reSub matchStar1 ('*' :: (inner ++ ['*'])) = inner := by
  have hm : matchStar1 ('*' :: (inner ++ ['*'])) = some (inner, []) := by
    simp only [matchStar1]
    rw [if_pos trivial]
    exact findClose1_spec '*' inner [] h
  have hlen : ('*' :: (inner ++ ['*'])).length = (inner.length + 1) + 1 := by
    simp only [List.length_cons, List.length_append, List.length_nil]
  unfold reSub
  rw [hlen, reSubF_match _ _ _ _ _ _ hm, reSubF_nil, List.append_nil]

theorem subStar2_single (c : Char) (t : PyStr)
    (h : ∀ a ∈ (c :: t), a ≠ '*' ∧ a ≠ '\n') :
    reSub matchStar2 ('*' :: ((c :: t) ++ ['*'])) = '*' :: ((c :: t) ++ ['*']) := by
  have hc : c ≠ '*' := (h c (List.mem_cons_self c t)).1
  have hm : matchStar2 ('*' :: ((c :: t) ++ ['*'])) = none := by
    rw [List.cons_append]
    exact matchStar2_none2 '*' (t ++ ['*']) hc
  have hlen : ('*' :: ((c :: t) ++ ['*'])).length = ((c :: t).length + 1) + 1 := by
    simp only [List.length_cons, List.length_append, List.length_nil]
  unfold reSub
  rw [hlen, reSubF_step _ _ _ _ hm,
    reSubF_skip matchStar2 (c :: t) 1 ['*']
      (fun x xs hx => matchStar2_none xs (h x hx).1)]
  rfl

theorem subUnd_unwrap2 (inner : PyStr) (h : ∀ a ∈ inner, a ≠ '_' ∧ a ≠ '\n') :
    reSub matchUnd ('_' :: '_' :: (inner ++ ['_', '_'])) = inner := by
  have hm : matchUnd ('_' :: '_' :: (inner ++ ['_', '_'])) = some (inner, []) := by
    simp only [matchUnd]
    rw [if_pos trivial, if_pos trivial, findCloseUnd_spec2 inner [] h]
  have hlen : ('_' :: '_' :: (inner ++ ['_', '_'])).length = (inner.length + 3) + 1 := by
    simp only [List.length_cons, List.length_append, List.length_nil]
  unfold reSub
  rw [hlen, reSubF_match _ _ _ _ _ _ hm, reSubF_nil, List.append_nil]

theorem subUnd_unwrap1 (c : Char) (t : PyStr)
    (h : ∀ a ∈ (c :: t), a ≠ '_' ∧ a ≠ '\n') :
    reSub matchUnd ('_' :: ((c :: t) ++ ['_'])) = c :: t := by
  have hc : c ≠ '_' := (h c (List.mem_cons_self c t)).1
  have hm : matchUnd ('_' :: ((c :: t) ++ ['_'])) = some (c :: t, []) := by
    rw [List.cons_append]
    simp only [matchUnd]
    rw [if_pos trivial, if_neg hc, ← List.cons_append]
    exact findCloseUnd_spec1 (c :: t) h
  have hlen : ('_' :: ((c :: t) ++ ['_'])).length = ((c :: t).length + 1) + 1 := by
    simp only [List.length_cons, List.length_append, List.length_nil]
  unfold reSub
  rw [hlen, reSubF_match _ _ _ _ _ _ hm, reSubF_nil, List.append_nil]

theorem remove_markdown_id (l : PyStr)
    (h : ∀ a ∈ l, a ≠ '*' ∧ a ≠ '_' ∧ a ≠ '~') :
    remove_markdown l = l := by
  unfold remove_markdown
  rw [reSub_star2_id l (fun a ha => (h a ha).1),
    reSub_star1_id l (fun a ha => (h a ha).1),
    reSub_und_id l (fun a ha => (h a ha).2.1),
    reSub_tilde_id l (fun a ha => (h a ha).2.2)]

theorem mem_wrap2 {a d : Char} {inner : PyStr}
    (ha : a ∈ (d :: d :: (inner ++ [d, d]))) : a = d ∨ a ∈ inner := by
  simp only [List.mem_cons, List.mem_append, List.mem_singleton] at ha
  tauto

theorem mem_wrap1 {a d : Char} {inner : PyStr}
    (ha : a ∈ (d :: (inner ++ [d]))) : a = d ∨ a ∈ inner := by
  simp only [List.mem_cons, List.mem_append, List.mem_singleton] at ha
  tauto

/-- C6: `remove_markdown` removes paired bold, italic, underline and
strikethrough delimiters (`**`, `*`, `__`, `_`, `~~`) around a span and
returns the enclosed text unchanged, for every enclosed text free of
delimiter characters and newlines. -/
theorem c6_remove_markdown_delimiters :
    ∀ inner : PyStr, (∀ a ∈ inner, a ≠ '*' ∧ a ≠ '_' ∧ a ≠ '~' ∧ a ≠ '\n') →
      remove_markdown (("**").toList ++ inner ++ ("**").toList) = inner
      ∧ remove_markdown (("*").toList ++ inner ++ ("*").toList) = inner
      ∧ remove_markdown (("__").toList ++ inner ++ ("__").toList) = inner
      ∧ remove_markdown (("_").toList ++ inner ++ ("_").toList) = inner
      ∧ remove_markdown (("~~").toList ++ inner ++ ("~~").toList) = inner := by
  intro inner h
  have hstar : ∀ a ∈ inner, a ≠ '*' ∧ a ≠ '\n' :=
    fun a ha => ⟨(h a ha).1, (h a ha).2.2.2⟩
  have hund : ∀ a ∈ inner, a ≠ '_' ∧ a ≠ '\n' :=
    fun a ha => ⟨(h a ha).2.1, (h a ha).2.2.2⟩
  have htil : ∀ a ∈ inner, a ≠ '~' ∧ a ≠ '\n' :=
    fun a ha => ⟨(h a ha).2.2.1, (h a ha).2.2.2⟩
  have hnostar : ∀ a ∈ inner, a ≠ '*' := fun a ha => (h a ha).1
  have hnound : ∀ a ∈ inner, a ≠ '_' := fun a ha => (h a ha).2.1
  have hnotil : ∀ a ∈ inner, a ≠ '~' := fun a ha => (h a ha).2.2.1
  refine ⟨?_, ?_, ?_, ?_, ?_⟩
  · show remove_markdown ('*' :: '*' :: (inner ++ ['*', '*'])) = inner
    unfold remove_markdown
    rw [subStar2_unwrap inner hstar, reSub_star1_id inner hnostar,
      reSub_und_id inner hnound, reSub_tilde_id inner hnotil]
  · show remove_markdown ('*' :: (inner ++ ['*'])) = inner
    cases inner with
    | nil => decide
    | cons c t =>
      unfold remove_markdown
      rw [subStar2_single c t hstar, subStar1_unwrap (c :: t) hstar,
        reSub_und_id (c :: t) hnound, reSub_tilde_id (c :: t) hnotil]
  · show remove_markdown ('_' :: '_' :: (inner ++ ['_', '_'])) = inner
    have hw : ∀ a ∈ ('_' :: '_' :: (inner ++ ['_', '_'])), a ≠ '*' := by
      intro a ha
      rcases mem_wrap2 ha with rfl | ha
      · decide
      · exact hnostar a ha
    unfold remove_markdown
    rw [reSub_star2_id _ hw, reSub_star1_id _ hw, subUnd_unwrap2 inner hund,
      reSub_tilde_id inner hnotil]
  · show remove_markdown ('_' :: (inner ++ ['_'])) = inner
    cases inner with
    | nil => decide
    | cons c t =>
      have hw : ∀ a ∈ ('_' :: ((c :: t) ++ ['_'])), a ≠ '*' := by
        intro a ha
        rcases mem_wrap1 ha with rfl | ha
        · decide
        · exact hnostar a ha
      unfold remove_markdown
      rw [reSub_star2_id _ hw, reSub_star1_id _ hw, subUnd_unwrap1 c t hund,
        reSub_tilde_id (c :: t) hnotil]
  · show remove_markdown ('~' :: '~' :: (inner ++ ['~', '~'])) = inner
    have hwS : ∀ a ∈ ('~' :: '~' :: (inner ++ ['~', '~'])), a ≠ '*' := by
      intro a ha
      rcases mem_wrap2 ha with rfl | ha
      · decide
      · exact hnostar a ha
    have hwU : ∀ a ∈ ('~' :: '~' :: (inner ++ ['~', '~'])), a ≠ '_' := by
      intro a ha
      rcases mem_wrap2 ha with rfl | ha
      · decide
      · exact hnound a ha
    unfold remove_markdown
    rw [reSub_star2_id _ hwS, reSub_star1_id _ hwS, reSub_und_id _ hwU,
      subTilde_unwrap inner htil]

theorem c6_remove_markdown_delimiters_witness :
    (∀ a ∈ (("hello").toList : PyStr), a ≠ '*' ∧ a ≠ '_' ∧ a ≠ '~' ∧ a ≠ '\n')
    ∧ remove_markdown (("**").toList ++ ("hello").toList ++ ("**").toList)
        = ("hello").toList
    ∧ remove_markdown (("~~").toList ++ ("hello").toList ++ ("~~").toList)
        = ("hello").toList :=
  ⟨by decide,
   (c6_remove_markdown_delimiters (("hello").toList) (by decide)).1,
   (c6_remove_markdown_delimiters (("hello").toList) (by decide)).2.2.2.2⟩

/-- C7 counterexample: the reply "Valen: hi" begins with the literal
assistant-name label, yet the success path returns it unchanged — neither
`remove_markdown` nor anything else strips the leading label. -/
theorem c7_counterexample :
    startsWithSeq (("Valen: hi").toList) (("Valen:").toList) = true
    ∧ pyProcess (("Valen: hi").toList) = ("Valen: hi").toList
    ∧ chat (some (ReqBody.mk (some (("hello").toList)) none none))
        [Outcome.success (("Valen: hi").toList)] [("k").toList]
      = HandlerOutcome.json (ChatResult.responseBody (("Valen: hi").toList))
          [("k").toList] :=
  ⟨by decide, by decide, by decide⟩

/-- C7 amended: post-processing never strips a leading assistant-name label:
it only trims surrounding whitespace and removes markdown emphasis
delimiters, so every reply that begins with "Valen:", contains no delimiter
characters, and is unchanged by strip is returned verbatim, label intact. -/
theorem c7_amended :
    ∀ t : PyStr, startsWithSeq t (("Valen:").toList) = true →
      (∀ a ∈ t, a ≠ '*' ∧ a ≠ '_' ∧ a ≠ '~') → pyStrip t = t →
      pyProcess t = t ∧ startsWithSeq (pyProcess t) (("Valen:").toList) = true := by
  intro t h1 h2 h3
  have hp : pyProcess t = t := by
    unfold pyProcess
    rw [h3, remove_markdown_id t h2]
  refine ⟨hp, ?_⟩
  rw [hp]
  exact h1

theorem c7_amended_witness :
    startsWithSeq (("Valen: hi").toList) (("Valen:").toList) = true
    ∧ pyStrip (("Valen: hi").toList) = ("Valen: hi").toList
    ∧ pyProcess (("Valen: hi").toList) = ("Valen: hi").toList
    ∧ startsWithSeq (pyProcess (("Valen: hi").toList)) (("Valen:").toList) = true :=
  ⟨by decide, by decide,
   (c7_amended (("Valen: hi").toList) (by decide) (by decide) (by decide)).1,
   (c7_amended (("Valen: hi").toList) (by decide) (by decide) (by decide)).2⟩

theorem startsWithSeq_append (l t : PyStr) : startsWithSeq (l ++ t) l = true := by
  induction l with
  | nil => simp [startsWithSeq]
  | cons a l ih => simp [startsWithSeq, ih]

theorem endsWithSeq_append (a b : PyStr) : endsWithSeq (a ++ b) b = true := by
  unfold endsWithSeq
  rw [List.reverse_append]
  exact startsWithSeq_append b.reverse a.reverse

/-- C5 counterexample: it is false that every prompt ends with an "AI:" cue —
for the message "hi" the prompt ends with the raw message, whatever the
persona preamble is. -/
theorem c5_counterexample :
    ¬ (∀ persona msg : PyStr,
        endsWithSeq (chat_prompt persona msg) (("AI:").toList) = true) := by
  intro hall
  have h := hall [] (("hi").toList)
  revert h
  decide

/-- C5 amended: the prompt is the persona preamble followed by a blank line,
the literal "User: " label and the raw user message: it begins with the
persona and ends with "User: " followed by the message — no conversation
turns are rendered and no trailing "AI:" cue is appended. -/
theorem c5_amended :
    ∀ persona msg : PyStr,
      chat_prompt persona msg
        = persona ++ ("\n\n").toList ++ (("User: ").toList ++ msg)
      ∧ startsWithSeq (chat_prompt persona msg) persona = true
      ∧ endsWithSeq (chat_prompt persona msg) (("User: ").toList ++ msg) = true := by
  intro persona msg
  have hsep : (("\n\nUser: ").toList : PyStr)
      = ("\n\n").toList ++ ("User: ").toList := by decide
  have hshape : chat_prompt persona msg
      = (persona ++ ("\n\n").toList) ++ (("User: ").toList ++ msg) := by
    unfold chat_prompt
    rw [hsep]
    simp [List.append_assoc]
  refine ⟨?_, ?_, ?_⟩
  · rw [hshape]
  · unfold chat_prompt
    rw [List.append_assoc]
    exact startsWithSeq_append persona _
  · rw [hshape]
    exact endsWithSeq_append _ _
